import Mathlib

/-
Shallow embedding of the trading-game core from `trading_simulator.py`
and `mode_config.py`.

Python `Decimal` values are modelled as exact rationals (ℚ); quantities
are integers (the Python code stores `int` amounts in a
`defaultdict(int)`).  The `defaultdict` of holdings is modelled as an
association list `List (String × ℤ)` together with the read-default-0
lookup and the insert-on-write behaviour of `+=`.  Fallible operations
return `Except SimError`, matching the exception that the Python method
raises; a raised exception leaves the Python object unmutated because
every `raise` happens before the first assignment, and likewise the
Lean operation returns `.error` without producing a new state.
-/

namespace TradingSim

/-- Asset-price snapshot: the `AssetPrice` dataclass of `mode_config.py`,
with its seven fields in declaration order. -/
structure AssetPrice where
  BTC : ℚ
  ETH : ℚ
  BNB : ℚ
  SOL : ℚ
  MKR : ℚ
  XPR : ℚ
  ADA : ℚ
deriving Repr, DecidableEq

/-- Field names of `AssetPrice` in dataclass declaration order
(`AssetPrice.__dataclass_fields__.keys()`). -/
def assetFields : List String := ["BTC", "ETH", "BNB", "SOL", "MKR", "XPR", "ADA"]

/-- Price of a named field, 0 for an unknown name (only ever used on
tracked names, where the fallback is unreachable). -/
def fieldPrice (p : AssetPrice) (s : String) : ℚ :=
  if s = "BTC" then p.BTC
  else if s = "ETH" then p.ETH
  else if s = "BNB" then p.BNB
  else if s = "SOL" then p.SOL
  else if s = "MKR" then p.MKR
  else if s = "XPR" then p.XPR
  else if s = "ADA" then p.ADA
  else 0

/-- Python `getattr(current_prices, asset)`: `some` price for one of the
seven dataclass fields, `none` (an `AttributeError`) otherwise. -/
def getPrice (p : AssetPrice) (s : String) : Option ℚ :=
  if s = "BTC" then some p.BTC
  else if s = "ETH" then some p.ETH
  else if s = "BNB" then some p.BNB
  else if s = "SOL" then some p.SOL
  else if s = "MKR" then some p.MKR
  else if s = "XPR" then some p.XPR
  else if s = "ADA" then some p.ADA
  else none

/-- Holdings dictionary: `defaultdict(int)` keyed by asset name. -/
abbrev Assets := List (String × ℤ)

/-- Dictionary read with the `defaultdict(int)` default:
`self.assets[asset]` as a pure value (0 when the key is absent). -/
def lookupD : Assets → String → ℤ
  | [], _ => 0
  | (k, v) :: rest, s => if k = s then v else lookupD rest s

/-- Dictionary membership test: `asset in self.assets`. -/
def hasKey : Assets → String → Bool
  | [], _ => false
  | (k, _) :: rest, s => k = s || hasKey rest s

/-- The read-modify-write `self.assets[asset] += amount` of a
`defaultdict(int)`: update the entry in place, inserting the key with
the default 0 first when it is absent. -/
def addTo : Assets → String → ℤ → Assets
  | [], s, d => [(s, d)]
  | (k, v) :: rest, s, d => if k = s then (k, v + d) :: rest else (k, v) :: addTo rest s d

/-- Ensure a key is present with the default 0 (the side effect of a
`defaultdict` read such as `self.assets[asset]` in `asset_values`). -/
def touch (a : Assets) (s : String) : Assets :=
  if hasKey a s then a else a ++ [(s, 0)]

/-- Reading `self.assets[asset]` for every dataclass field, as
`asset_values` does, inserts every tracked key with default 0. -/
def touchAll (a : Assets) : Assets :=
  assetFields.foldl touch a

/-- Exceptions of `trading_simulator.py`.  `notEnoughCash` is raised
both for a negative initial capital and for an under-funded buy;
`stopIteration` is the `StopIteration` of an exhausted price source. -/
inductive SimError where
  | notEnoughCash
  | wrongAssetName
  | notEnoughAsset
  | stopIteration
deriving Repr, DecidableEq

/-- State of the `PortfolioSimulator` dataclass: cash, holdings, day
counter, the current (date, prices) pair and the not-yet-consumed rest
of the price history, and the profit baseline `initial_value`. -/
structure PortfolioSimulator where
  cash : ℚ
  assets : Assets
  day_count : ℕ
  current_date : ℤ
  current_prices : AssetPrice
  days : List (ℤ × AssetPrice)
  initial_value : ℚ
deriving Repr, DecidableEq

/-- Property `asset_values`: for every dataclass field with non-zero
holdings, the triple (asset, quantity, price × quantity), in field
order. -/
def asset_values (st : PortfolioSimulator) : List (String × ℤ × ℚ) :=
  assetFields.filterMap fun s =>
    let quantity := lookupD st.assets s
    if quantity ≠ 0 then some (s, quantity, fieldPrice st.current_prices s * quantity)
    else none

/-- Property `value`: cash plus the summed holdings values. -/
def value (st : PortfolioSimulator) : ℚ :=
  st.cash + ((asset_values st).map fun t => t.2.2).sum

/-- Property `profit`: portfolio value minus the construction-time
baseline. -/
def profit (st : PortfolioSimulator) : ℚ :=
  value st - st.initial_value

/-- Method `next_day`: pull the next (date, prices) pair from the
source, raising `StopIteration` when it is exhausted, and increment the
day counter. -/
def next_day (st : PortfolioSimulator) : Except SimError PortfolioSimulator :=
  match st.days with
  | [] => .error .stopIteration
  | (d, p) :: rest =>
      .ok { st with current_date := d, current_prices := p, days := rest,
                    day_count := st.day_count + 1 }

/-- Method `buy`: look the price up by attribute (raising
`WrongAssetName` on an unknown attribute), compute the cost, raise
`NotEnoughCash` when `cash < cost`, otherwise debit the cash and credit
the holdings. -/
def buy (st : PortfolioSimulator) (asset : String) (amount : ℤ) :
    Except SimError PortfolioSimulator :=
  match getPrice st.current_prices asset with
  | none => .error .wrongAssetName
  | some price =>
      let cost := price * (amount : ℚ)
      if st.cash < cost then .error .notEnoughCash
      else .ok { st with cash := st.cash - cost, assets := addTo st.assets asset amount }

/-- Method `sell`: raise `WrongAssetName` when the asset is not a key of
the holdings dictionary, raise `NotEnoughAsset` when the held quantity
is below `amount`, look the price up by attribute (raising
`WrongAssetName` on an unknown attribute), then credit the cash and
debit the holdings. -/
def sell (st : PortfolioSimulator) (asset : String) (amount : ℤ) :
    Except SimError PortfolioSimulator :=
  if ¬ hasKey st.assets asset then .error .wrongAssetName
  else if lookupD st.assets asset < amount then .error .notEnoughAsset
  else
    match getPrice st.current_prices asset with
    | none => .error .wrongAssetName
    | some price =>
        .ok { st with cash := st.cash + price * (amount : ℚ),
                      assets := addTo st.assets asset (-amount) }

/-- Construction (`__init__` plus `__post_init__`): reject a negative
initial capital with `NotEnoughCash`, pull the first day (raising
`StopIteration` when the source yields nothing), then capture
`initial_value = value`; computing `value` reads every tracked key of
the `defaultdict`, inserting each with default 0 (`touchAll`). -/
def initSimulator (history : List (ℤ × AssetPrice)) (cash : ℚ) :
    Except SimError PortfolioSimulator :=
  if cash < 0 then .error .notEnoughCash
  else
    match history with
    | [] => .error .stopIteration
    | (d, p) :: rest =>
        let st0 : PortfolioSimulator :=
          { cash := cash, assets := touchAll [], day_count := 1,
            current_date := d, current_prices := p, days := rest, initial_value := 0 }
        .ok { st0 with initial_value := value st0 }

/-- Extract the success state of a fallible operation, keeping a
fallback state on failure (the Python object is unchanged when the
method raises). -/
def getOk (e : Except SimError PortfolioSimulator) (fallback : PortfolioSimulator) :
    PortfolioSimulator :=
  match e with
  | .ok st => st
  | .error _ => fallback

/-- Spec-side restatement of `buy` (for the refinement comparison): the
tracked set is the fixed field list; an untracked symbol fails with
`UnknownAsset`; `cost = price × quantity`; `InsufficientCash` when
`cash < cost`; otherwise debit cash, credit holdings.  Quantity is not
validated. -/
def buySpec (st : PortfolioSimulator) (s : String) (q : ℤ) :
    Except SimError PortfolioSimulator :=
  if s ∈ assetFields then
    if st.cash < fieldPrice st.current_prices s * (q : ℚ) then .error .notEnoughCash
    else .ok { st with cash := st.cash - fieldPrice st.current_prices s * (q : ℚ),
                       assets := addTo st.assets s q }
  else .error .wrongAssetName

/-- Spec-side restatement of `sell` (for the refinement comparison): an
untracked symbol fails with `UnknownAsset`; `InsufficientHoldings` when
the held quantity (default 0) is below the requested amount; otherwise
credit cash, debit holdings. -/
def sellSpec (st : PortfolioSimulator) (s : String) (q : ℤ) :
    Except SimError PortfolioSimulator :=
  if s ∈ assetFields then
    if lookupD st.assets s < q then .error .notEnoughAsset
    else .ok { st with cash := st.cash + fieldPrice st.current_prices s * (q : ℚ),
                       assets := addTo st.assets s (-q) }
  else .error .wrongAssetName

/-- The successful-buy state: cash debited by the cost, holdings
credited by the amount. -/
def buyResult (st : PortfolioSimulator) (s : String) (q : ℤ) : PortfolioSimulator :=
  { st with cash := st.cash - fieldPrice st.current_prices s * (q : ℚ),
            assets := addTo st.assets s q }

/-- The successful-sell state: cash credited by the proceeds, holdings
debited by the amount. -/
def sellResult (st : PortfolioSimulator) (s : String) (q : ℤ) : PortfolioSimulator :=
  { st with cash := st.cash + fieldPrice st.current_prices s * (q : ℚ),
            assets := addTo st.assets s (-q) }

/-- A user operation against the engine: a buy or a sell request. -/
inductive Op where
  | buy (asset : String) (amount : ℤ)
  | sell (asset : String) (amount : ℤ)
deriving Repr, DecidableEq

/-- Run one operation; a failed operation leaves the state unchanged
(the exception is raised before any field assignment). -/
def applyOp (st : PortfolioSimulator) : Op → PortfolioSimulator
  | .buy s q => getOk (buy st s q) st
  | .sell s q => getOk (sell st s q) st

/-- Run a sequence of operations in order. -/
def runOps (st : PortfolioSimulator) (ops : List Op) : PortfolioSimulator :=
  ops.foldl applyOp st

/-- A valid operation in the sense of the spec: a positive integer
quantity on a tracked symbol. -/
def validOp (op : Op) : Prop :=
  match op with
  | .buy s q => 0 < q ∧ s ∈ assetFields
  | .sell s q => 0 < q ∧ s ∈ assetFields

instance (op : Op) : Decidable (validOp op) := by
  cases op with
  | buy s q => exact inferInstanceAs (Decidable (0 < q ∧ s ∈ assetFields))
  | sell s q => exact inferInstanceAs (Decidable (0 < q ∧ s ∈ assetFields))

/-- Cash is non-negative and every holdings quantity is non-negative. -/
def holdingsNonneg (a : Assets) : Prop := ∀ p ∈ a, 0 ≤ p.2

/-- The engine invariant of the spec: non-negative cash and
non-negative holdings. -/
def invariantHolds (st : PortfolioSimulator) : Prop :=
  0 ≤ st.cash ∧ holdingsNonneg st.assets

/-- All seven prices of a snapshot are non-negative (valid data has
strictly positive prices). -/
def pricesNonneg (p : AssetPrice) : Prop :=
  0 ≤ p.BTC ∧ 0 ≤ p.ETH ∧ 0 ≤ p.BNB ∧ 0 ≤ p.SOL ∧ 0 ≤ p.MKR ∧ 0 ≤ p.XPR ∧ 0 ≤ p.ADA

/-- After construction every tracked symbol is a key of the holdings
dictionary (the construction-time `value` read inserts them), and no
untracked key is ever present. -/
def keysPopulated (st : PortfolioSimulator) : Prop :=
  (∀ s ∈ assetFields, hasKey st.assets s = true) ∧ ∀ p ∈ st.assets, p.1 ∈ assetFields

instance (a : Assets) : Decidable (holdingsNonneg a) :=
  inferInstanceAs (Decidable (∀ p ∈ a, 0 ≤ p.2))

instance (st : PortfolioSimulator) : Decidable (invariantHolds st) :=
  inferInstanceAs (Decidable (0 ≤ st.cash ∧ holdingsNonneg st.assets))

instance (p : AssetPrice) : Decidable (pricesNonneg p) :=
  inferInstanceAs (Decidable (0 ≤ p.BTC ∧ 0 ≤ p.ETH ∧ 0 ≤ p.BNB ∧ 0 ≤ p.SOL ∧
    0 ≤ p.MKR ∧ 0 ≤ p.XPR ∧ 0 ≤ p.ADA))

instance (st : PortfolioSimulator) : Decidable (keysPopulated st) :=
  inferInstanceAs (Decidable ((∀ s ∈ assetFields, hasKey st.assets s = true) ∧
    ∀ p ∈ st.assets, p.1 ∈ assetFields))

/-- The rational one half (the Decimal value 0.5 of the source), kept in reduced normal
form so that it evaluates by kernel reduction. -/
def half : ℚ := ⟨1, 2, by decide, by decide⟩

/-- The fixed base snapshot of `RandomAssetPriceHistory.__iter__`:
day-0 prices. -/
def base_asset_price : AssetPrice :=
  { BTC := 20000, ETH := 1500, BNB := 300, SOL := 25, MKR := 1200, XPR := half, ADA := half }

/-- Python `random.uniform(low, high)`: `low + (high - low) * random()`
applied to one raw draw `u` of the generator. -/
def uniform (low high u : ℚ) : ℚ := low + (high - low) * u

/-- One day-step of the random walk: each field of the new snapshot is
the previous field times a freshly drawn multiplier, the seven draws
being consumed in dataclass field order (draws `7*n` through
`7*n + 6` on step `n`). -/
def stepPrices (low high : ℚ) (u : ℕ → ℚ) (n : ℕ) (prev : AssetPrice) : AssetPrice :=
  { BTC := prev.BTC * uniform low high (u (7 * n)),
    ETH := prev.ETH * uniform low high (u (7 * n + 1)),
    BNB := prev.BNB * uniform low high (u (7 * n + 2)),
    SOL := prev.SOL * uniform low high (u (7 * n + 3)),
    MKR := prev.MKR * uniform low high (u (7 * n + 4)),
    XPR := prev.XPR * uniform low high (u (7 * n + 5)),
    ADA := prev.ADA * uniform low high (u (7 * n + 6)) }

/-- Prices produced by `RandomAssetPriceHistory.__iter__` on day `n`,
given the stream `u` of raw generator draws owned by the instance: day 0 is the
base snapshot untouched by the generator; every later day multiplies
the previous day field-wise. -/
def walkPrices (low high : ℚ) (u : ℕ → ℚ) : ℕ → AssetPrice
  | 0 => base_asset_price
  | n + 1 => stepPrices low high u n (walkPrices low high u n)

/-- The full (date, snapshot) output of the random source on day `n`:
the construction-day date advanced by `n` calendar days.  Total in
`n`, so the produced sequence is unbounded. -/
def randomWalkSeq (today : ℤ) (low high : ℚ) (u : ℕ → ℚ) (n : ℕ) : ℤ × AssetPrice :=
  (today + n, walkPrices low high u n)

/-- Holdings dictionary as construction leaves it: every tracked key
present with quantity 0. -/
def assetsInit : Assets :=
  [("BTC", 0), ("ETH", 0), ("BNB", 0), ("SOL", 0), ("MKR", 0), ("XPR", 0), ("ADA", 0)]

/-- Holdings with `n` units of BTC and nothing else. -/
def assetsBTC (n : ℤ) : Assets :=
  [("BTC", n), ("ETH", 0), ("BNB", 0), ("SOL", 0), ("MKR", 0), ("XPR", 0), ("ADA", 0)]

/-- A freshly constructed engine with 100 cash on the base snapshot
(price of BTC is 20000): the boundary-example engine. -/
def smallEngine : PortfolioSimulator :=
  { cash := 100, assets := assetsInit, day_count := 1, current_date := 0,
    current_prices := base_asset_price, days := [], initial_value := 100 }

/-- Day-2 snapshot of the end-to-end scenario: BTC has moved to
25000. -/
def c5prices2 : AssetPrice := { base_asset_price with BTC := 25000 }

/-- Two-day price history of the end-to-end scenario. -/
def c5days : List (ℤ × AssetPrice) := [(0, base_asset_price), (1, c5prices2)]

/-- Scenario state after construction with 100000 cash. -/
def c5s1 : PortfolioSimulator :=
  { cash := 100000, assets := assetsInit, day_count := 1, current_date := 0,
    current_prices := base_asset_price, days := [(1, c5prices2)], initial_value := 100000 }

/-- Scenario state after `buy BTC 2`. -/
def c5s2 : PortfolioSimulator :=
  { cash := 60000, assets := assetsBTC 2, day_count := 1, current_date := 0,
    current_prices := base_asset_price, days := [(1, c5prices2)], initial_value := 100000 }

/-- Scenario state after advancing to day 2. -/
def c5s3 : PortfolioSimulator :=
  { cash := 60000, assets := assetsBTC 2, day_count := 2, current_date := 1,
    current_prices := c5prices2, days := [], initial_value := 100000 }

/-- Scenario state after `sell BTC 1`. -/
def c5s4 : PortfolioSimulator :=
  { cash := 85000, assets := assetsBTC 1, day_count := 2, current_date := 1,
    current_prices := c5prices2, days := [], initial_value := 100000 }

/-! Helper lemmas about the tracked field set and attribute lookup. -/

lemma mem_assetFields_iff (s : String) :
    s ∈ assetFields ↔
      s = "BTC" ∨ s = "ETH" ∨ s = "BNB" ∨ s = "SOL" ∨ s = "MKR" ∨ s = "XPR" ∨ s = "ADA" := by
  simp [assetFields]

lemma getPrice_of_mem (p : AssetPrice) {s : String} (hs : s ∈ assetFields) :
    getPrice p s = some (fieldPrice p s) := by
  rcases (mem_assetFields_iff s).1 hs with h | h | h | h | h | h | h <;> subst h <;> rfl

lemma getPrice_of_not_mem (p : AssetPrice) {s : String} (hs : s ∉ assetFields) :
    getPrice p s = none := by
  rw [mem_assetFields_iff] at hs
  push_neg at hs
  obtain ⟨h1, h2, h3, h4, h5, h6, h7⟩ := hs
  simp [getPrice, h1, h2, h3, h4, h5, h6, h7]

/-! Helper lemmas about the holdings dictionary. -/

lemma lookupD_nonneg {a : Assets} (h : holdingsNonneg a) (s : String) :
    0 ≤ lookupD a s := by
  induction a with
  | nil => simp [lookupD]
  | cons hd tl ih =>
      obtain ⟨k, v⟩ := hd
      by_cases hk : k = s
      · simpa [lookupD, hk] using h (k, v) (by simp)
      · simpa [lookupD, hk] using ih fun p hp => h p (by simp [hp])

lemma lookupD_addTo_self (a : Assets) (s : String) (d : ℤ) :
    lookupD (addTo a s d) s = lookupD a s + d := by
  induction a with
  | nil => simp [addTo, lookupD]
  | cons hd tl ih =>
      obtain ⟨k, v⟩ := hd
      by_cases hk : k = s
      · simp [addTo, lookupD, hk]
      · simp [addTo, lookupD, hk, ih]

lemma lookupD_addTo_ne (a : Assets) {s t : String} (h : t ≠ s) (d : ℤ) :
    lookupD (addTo a s d) t = lookupD a t := by
  induction a with
  | nil => simp [addTo, lookupD, Ne.symm h]
  | cons hd tl ih =>
      obtain ⟨k, v⟩ := hd
      by_cases hk : k = s
      · subst hk
        simp [addTo, lookupD, Ne.symm h]
      · simp [addTo, lookupD, hk, ih]

lemma hasKey_addTo_self (a : Assets) (s : String) (d : ℤ) :
    hasKey (addTo a s d) s = true := by
  induction a with
  | nil => simp [addTo, hasKey]
  | cons hd tl ih =>
      obtain ⟨k, v⟩ := hd
      by_cases hk : k = s
      · simp [addTo, hasKey, hk]
      · simp [addTo, hasKey, hk, ih]

lemma mem_addTo {a : Assets} {s : String} {d : ℤ} {p : String × ℤ}
    (hp : p ∈ addTo a s d) : p ∈ a ∨ p = (s, lookupD a s + d) := by
  induction a with
  | nil =>
      right
      simp only [addTo, List.mem_singleton] at hp
      simp [hp, lookupD]
  | cons hd tl ih =>
      obtain ⟨k, v⟩ := hd
      by_cases hk : k = s
      · subst hk
        simp only [addTo, if_pos rfl] at hp
        rcases List.mem_cons.1 hp with h1 | h1
        · right
          simp [h1, lookupD]
        · left
          exact List.mem_cons_of_mem _ h1
      · simp only [addTo, if_neg hk] at hp
        rcases List.mem_cons.1 hp with h1 | h1
        · left
          simp [h1]
        · rcases ih h1 with h2 | h2
          · left
            exact List.mem_cons_of_mem _ h2
          · right
            simpa [lookupD, hk] using h2

lemma hasKey_exists {a : Assets} {s : String} (h : hasKey a s = true) :
    ∃ v, (s, v) ∈ a := by
  induction a with
  | nil => simp [hasKey] at h
  | cons hd tl ih =>
      obtain ⟨k, v⟩ := hd
      by_cases hk : k = s
      · exact ⟨v, by simp [hk]⟩
      · simp only [hasKey, decide_eq_false hk, Bool.false_or] at h
        obtain ⟨w, hw⟩ := ih h
        exact ⟨w, by simp [hw]⟩

/-! Refinement of the two mutating operations against their spec-side
restatements, and the construction computation. -/

lemma buy_eq_spec (st : PortfolioSimulator) (s : String) (q : ℤ) :
    buy st s q = buySpec st s q := by
  by_cases hs : s ∈ assetFields
  · unfold buy buySpec
    rw [getPrice_of_mem st.current_prices hs, if_pos hs]
  · unfold buy buySpec
    rw [getPrice_of_not_mem st.current_prices hs, if_neg hs]

lemma sell_eq_spec (st : PortfolioSimulator) (s : String) (q : ℤ)
    (hk : keysPopulated st) : sell st s q = sellSpec st s q := by
  by_cases hs : s ∈ assetFields
  · have hkey : hasKey st.assets s = true := hk.1 s hs
    unfold sell sellSpec
    rw [if_pos hs, if_neg (by simp [hkey])]
    by_cases hlt : lookupD st.assets s < q
    · rw [if_pos hlt, if_pos hlt]
    · rw [if_neg hlt, if_neg hlt, getPrice_of_mem st.current_prices hs]
  · have hkey : hasKey st.assets s = false := by
      cases hcase : hasKey st.assets s with
      | false => rfl
      | true =>
          obtain ⟨v, hv⟩ := hasKey_exists hcase
          exact absurd (hk.2 (s, v) hv) hs
    unfold sell sellSpec
    rw [if_neg hs, if_pos (by simp [hkey])]

lemma touchAll_nil : touchAll [] = assetsInit := rfl

lemma lookupD_assetsInit (s : String) : lookupD assetsInit s = 0 := by
  simp only [assetsInit, lookupD]
  split_ifs <;> rfl

lemma value_fresh (st : PortfolioSimulator) (h : st.assets = assetsInit) :
    value st = st.cash := by
  have hav : asset_values st = [] := by
    simp [asset_values, h, lookupD_assetsInit]
  simp [value, hav]

lemma initSimulator_cons (d : ℤ) (p : AssetPrice) (rest : List (ℤ × AssetPrice))
    (cash : ℚ) (hc : ¬ cash < 0) :
    initSimulator ((d, p) :: rest) cash =
      .ok { cash := cash, assets := assetsInit, day_count := 1, current_date := d,
            current_prices := p, days := rest, initial_value := cash } := by
  have hval : value (PortfolioSimulator.mk cash (touchAll []) 1 d p rest 0) = cash :=
    value_fresh _ touchAll_nil
  have hrec : PortfolioSimulator.mk cash (touchAll []) 1 d p rest
      (value (PortfolioSimulator.mk cash (touchAll []) 1 d p rest 0)) =
      PortfolioSimulator.mk cash assetsInit 1 d p rest cash := by
    rw [hval, touchAll_nil]
  unfold initSimulator
  rw [if_neg hc]
  exact congrArg Except.ok hrec

lemma initSimulator_ok {history : List (ℤ × AssetPrice)} {cash : ℚ}
    {st0 : PortfolioSimulator} (h : initSimulator history cash = .ok st0) :
    0 ≤ cash ∧ st0.cash = cash ∧ st0.assets = assetsInit ∧ st0.day_count = 1 := by
  unfold initSimulator at h
  by_cases hc : cash < 0
  · rw [if_pos hc] at h
    cases h
  · rw [if_neg hc] at h
    cases history with
    | nil => cases h
    | cons hd rest =>
        obtain ⟨d, p⟩ := hd
        cases h
        exact ⟨not_lt.1 hc, rfl, touchAll_nil, rfl⟩

lemma holdingsNonneg_assetsInit : holdingsNonneg assetsInit := by
  intro p hp
  simp only [assetsInit, List.mem_cons, List.mem_singleton, List.not_mem_nil, or_false] at hp
  rcases hp with h | h | h | h | h | h | h <;> rw [h]

lemma keysPopulated_of_assetsInit (st : PortfolioSimulator) (h : st.assets = assetsInit) :
    keysPopulated st := by
  constructor
  · intro s hs
    rw [h]
    rcases (mem_assetFields_iff s).1 hs with h1 | h1 | h1 | h1 | h1 | h1 | h1 <;> subst h1 <;> rfl
  · intro p hp
    rw [h] at hp
    simp only [assetsInit, List.mem_cons, List.mem_singleton, List.not_mem_nil, or_false] at hp
    rcases hp with h1 | h1 | h1 | h1 | h1 | h1 | h1 <;> rw [h1] <;> decide

/-! Preservation of the cash/holdings invariant by single operations
and by operation sequences. -/

lemma fieldPrice_nonneg {p : AssetPrice} (hp : pricesNonneg p) (s : String) :
    0 ≤ fieldPrice p s := by
  obtain ⟨h1, h2, h3, h4, h5, h6, h7⟩ := hp
  unfold fieldPrice
  split_ifs <;> first | assumption | exact le_refl 0

lemma buy_current_prices {st st2 : PortfolioSimulator} {s : String} {q : ℤ}
    (h : buy st s q = .ok st2) : st2.current_prices = st.current_prices := by
  unfold buy at h
  cases hg : getPrice st.current_prices s with
  | none =>
      simp only [hg] at h
      cases h
  | some price =>
      simp only [hg] at h
      by_cases hc : st.cash < price * (q : ℚ)
      · rw [if_pos hc] at h
        cases h
      · rw [if_neg hc] at h
        cases h
        rfl

lemma sell_current_prices {st st2 : PortfolioSimulator} {s : String} {q : ℤ}
    (h : sell st s q = .ok st2) : st2.current_prices = st.current_prices := by
  unfold sell at h
  by_cases hkey : hasKey st.assets s = true
  · rw [if_neg (by simp [hkey])] at h
    by_cases hlt : lookupD st.assets s < q
    · rw [if_pos hlt] at h
      cases h
    · rw [if_neg hlt] at h
      cases hg : getPrice st.current_prices s with
      | none =>
          simp only [hg] at h
          cases h
      | some price =>
          simp only [hg] at h
          cases h
          rfl
  · rw [if_pos (by simpa using hkey)] at h
    cases h

lemma applyOp_current_prices (st : PortfolioSimulator) (op : Op) :
    (applyOp st op).current_prices = st.current_prices := by
  cases op with
  | buy s q =>
      simp only [applyOp]
      cases hb : buy st s q with
      | ok st2 => simpa [getOk] using buy_current_prices hb
      | error e => simp [getOk]
  | sell s q =>
      simp only [applyOp]
      cases hb : sell st s q with
      | ok st2 => simpa [getOk] using sell_current_prices hb
      | error e => simp [getOk]

lemma invariant_applyOp (st : PortfolioSimulator) (op : Op)
    (hp : pricesNonneg st.current_prices) (hv : validOp op)
    (h : invariantHolds st) : invariantHolds (applyOp st op) := by
  cases op with
  | buy s q =>
      obtain ⟨hq, hs⟩ := hv
      simp only [applyOp, buy_eq_spec, buySpec, if_pos hs]
      by_cases hc : st.cash < fieldPrice st.current_prices s * (q : ℚ)
      · simpa [getOk, hc] using h
      · rw [if_neg hc]
        simp only [getOk]
        refine ⟨?_, ?_⟩
        · have hcost := not_lt.1 hc
          show 0 ≤ st.cash - fieldPrice st.current_prices s * (q : ℚ)
          linarith
        · intro p2 hp2
          rcases mem_addTo hp2 with h1 | h1
          · exact h.2 p2 h1
          · rw [h1]
            have h0 : 0 ≤ lookupD st.assets s := lookupD_nonneg h.2 s
            show (0:ℤ) ≤ lookupD st.assets s + q
            omega
  | sell s q =>
      obtain ⟨hq, hs⟩ := hv
      simp only [applyOp, sell]
      by_cases hkey : hasKey st.assets s = true
      · rw [if_neg (by simp [hkey])]
        by_cases hlt : lookupD st.assets s < q
        · simpa [getOk, hlt] using h
        · rw [if_neg hlt, getPrice_of_mem st.current_prices hs]
          simp only [getOk]
          refine ⟨?_, ?_⟩
          · have h0 : 0 ≤ fieldPrice st.current_prices s := fieldPrice_nonneg hp s
            have hq0 : (0:ℚ) ≤ (q : ℚ) := by exact_mod_cast hq.le
            have hmul := mul_nonneg h0 hq0
            show 0 ≤ st.cash + fieldPrice st.current_prices s * (q : ℚ)
            linarith [h.1]
          · intro p2 hp2
            rcases mem_addTo hp2 with h1 | h1
            · exact h.2 p2 h1
            · rw [h1]
              have hle := not_lt.1 hlt
              show (0:ℤ) ≤ lookupD st.assets s + -q
              omega
      · rw [if_pos (by simpa using hkey)]
        simpa [getOk] using h

lemma invariant_runOps (ops : List Op) :
    ∀ st : PortfolioSimulator, pricesNonneg st.current_prices →
      (∀ op ∈ ops, validOp op) → invariantHolds st → invariantHolds (runOps st ops) := by
  induction ops with
  | nil =>
      intro st _ _ h
      simpa [runOps] using h
  | cons op ops ih =>
      intro st hp hops h
      have hp2 : pricesNonneg (applyOp st op).current_prices := by
        rw [applyOp_current_prices]
        exact hp
      have h2 := invariant_applyOp st op hp (hops op (by simp)) h
      have h3 := ih (applyOp st op) hp2 (fun o ho => hops o (by simp [ho])) h2
      simpa [runOps] using h3

/-! Claim theorems. -/

/-- C1: for every engine constructed with non-negative initial cash and
every sequence of valid buy/sell operations (positive integer quantity,
symbol in the tracked set), where each operation either succeeds or
fails leaving the state unchanged, `cash ≥ 0` and every holdings
quantity `≥ 0` hold after every operation (the operation list is
arbitrary, so every prefix of a sequence is covered). -/
theorem c1_invariant (history : List (ℤ × AssetPrice)) (cash : ℚ) (st0 : PortfolioSimulator)
    (h : initSimulator history cash = Except.ok st0)
    (hp : pricesNonneg st0.current_prices)
    (ops : List Op) (hops : ∀ op ∈ ops, validOp op) :
    invariantHolds (runOps st0 ops) := by
  obtain ⟨hc, hcash, hassets, _⟩ := initSimulator_ok h
  have hinv : invariantHolds st0 := by
    refine ⟨?_, ?_⟩
    · rw [hcash]
      exact hc
    · rw [hassets]
      exact holdingsNonneg_assetsInit
  exact invariant_runOps ops st0 hp hops hinv

/-- C1 witness: a concrete engine (100 cash, base prices) and a concrete
valid operation sequence. -/
theorem c1_invariant_witness :
    invariantHolds (runOps smallEngine [Op.buy "XPR" 1, Op.sell "XPR" 1]) :=
  c1_invariant [(0, base_asset_price)] 100 smallEngine
    (initSimulator_cons 0 base_asset_price [] 100 (by decide))
    (by decide) [Op.buy "XPR" 1, Op.sell "XPR" 1] (by decide)

/-- C2 counterexample: with 100 cash and BTC priced 20000, the call
`buy("BTC", -2)` has a non-positive quantity, yet it does not fail with
`UnknownAsset` (it succeeds), refuting the claim that a quantity that is
not a positive integer makes the call fail with `UnknownAsset`. -/
theorem c2_counterexample :
    ¬ buy smallEngine "BTC" (-2) = Except.error SimError.wrongAssetName := by
  rw [buy_eq_spec]
  norm_num [buySpec, smallEngine, fieldPrice, base_asset_price, assetFields]
  intro hcontra
  cases hcontra

/-- C2 (amended): `buy(symbol, quantity)` fails with `UnknownAsset`
exactly when the symbol is outside the tracked set (the quantity is not
validated); otherwise, with `cost = price(symbol) × quantity`, it fails
with `InsufficientCash` when `cash < cost` and on success performs
exactly `cash -= cost` and `holdings[symbol] += quantity`, atomically.
In particular, with cash 100 and BTC priced 20000, `buy("BTC", 1)`
fails with `InsufficientCash`, and `buy("DOGE", 1)` fails with
`UnknownAsset`. -/
theorem c2_buy_contract :
    (∀ (st : PortfolioSimulator) (s : String) (q : ℤ), buy st s q = buySpec st s q) ∧
    buy smallEngine "BTC" 1 = Except.error SimError.notEnoughCash ∧
    buy smallEngine "DOGE" 1 = Except.error SimError.wrongAssetName := by
  refine ⟨buy_eq_spec, ?_, rfl⟩
  rw [buy_eq_spec]
  norm_num [buySpec, smallEngine, fieldPrice, base_asset_price, assetFields]

/-- C3: for a positive quantity on a post-construction engine (every
tracked symbol a key of the holdings dictionary, no untracked key),
`sell` fails with `UnknownAsset` exactly when the symbol is untracked,
fails with `InsufficientHoldings` when the held quantity (default 0 for
a never-bought tracked symbol) is below the requested amount, and
otherwise performs exactly `cash += price × quantity` and
`holdings[symbol] -= quantity`; a failure returns no state, so cash and
holdings are unchanged. -/
theorem c3_sell_contract (st : PortfolioSimulator) (s : String) (q : ℤ)
    (_hq : 0 < q) (hk : keysPopulated st) :
    sell st s q = sellSpec st s q :=
  sell_eq_spec st s q hk

/-- C3 witness: selling one never-bought tracked asset on the concrete
small engine (both sides fail with `InsufficientHoldings`). -/
theorem c3_sell_contract_witness :
    (0:ℤ) < 1 ∧ keysPopulated smallEngine ∧
    sell smallEngine "ETH" 1 = sellSpec smallEngine "ETH" 1 :=
  ⟨by decide, keysPopulated_of_assetsInit smallEngine rfl,
    c3_sell_contract smallEngine "ETH" 1 (by decide)
      (keysPopulated_of_assetsInit smallEngine rfl)⟩

/-- C4: neither `buy` nor `sell` validates that the quantity is
positive: on a tracked symbol with positive price, non-negative cash
and non-negative holdings, `sell` with `q ≤ 0` succeeds, setting cash
to `cash + price × q` and holdings to `holdings − q`, so a negative `q`
strictly decreases cash and strictly increases the holding;
symmetrically `buy` with `q < 0` succeeds (the cost is negative, so the
cash check passes), strictly increasing cash and strictly decreasing
the holding. -/
theorem c4_no_quantity_validation (st : PortfolioSimulator) (s : String) (q : ℤ)
    (hs : s ∈ assetFields) (hk : ∀ t ∈ assetFields, hasKey st.assets t = true)
    (hpos : 0 < fieldPrice st.current_prices s)
    (hcash : 0 ≤ st.cash) (hhold : 0 ≤ lookupD st.assets s) :
    (q ≤ 0 →
      sell st s q = Except.ok (sellResult st s q) ∧
      (q < 0 → (sellResult st s q).cash < st.cash ∧
        lookupD st.assets s < lookupD (sellResult st s q).assets s)) ∧
    (q < 0 →
      buy st s q = Except.ok (buyResult st s q) ∧
      st.cash < (buyResult st s q).cash ∧
      lookupD (buyResult st s q).assets s < lookupD st.assets s) := by
  constructor
  · intro hq0
    constructor
    · unfold sell
      rw [if_neg (by simp [hk s hs]), if_neg (by omega : ¬ lookupD st.assets s < q),
        getPrice_of_mem st.current_prices hs]
      rfl
    · intro hqneg
      have hmul : fieldPrice st.current_prices s * (q : ℚ) < 0 :=
        mul_neg_of_pos_of_neg hpos (by exact_mod_cast hqneg)
      constructor
      · show st.cash + fieldPrice st.current_prices s * (q : ℚ) < st.cash
        linarith
      · show lookupD st.assets s < lookupD (addTo st.assets s (-q)) s
        rw [lookupD_addTo_self]
        omega
  · intro hqneg
    have hmul : fieldPrice st.current_prices s * (q : ℚ) < 0 :=
      mul_neg_of_pos_of_neg hpos (by exact_mod_cast hqneg)
    refine ⟨?_, ?_, ?_⟩
    · rw [buy_eq_spec]
      unfold buySpec
      rw [if_pos hs, if_neg (not_lt.2 (by linarith))]
      rfl
    · show st.cash < st.cash - fieldPrice st.current_prices s * (q : ℚ)
      linarith
    · show lookupD (addTo st.assets s q) s < lookupD st.assets s
      rw [lookupD_addTo_self]
      omega

/-- C4 witness: on the concrete small engine, `sell("BTC", -1)` and
`buy("BTC", -1)` both succeed. -/
theorem c4_no_quantity_validation_witness :
    sell smallEngine "BTC" (-1) = Except.ok (sellResult smallEngine "BTC" (-1)) ∧
    buy smallEngine "BTC" (-1) = Except.ok (buyResult smallEngine "BTC" (-1)) :=
  ⟨((c4_no_quantity_validation smallEngine "BTC" (-1) (by decide) (by decide) (by decide)
        (by decide) (by decide)).1 (by decide)).1,
    ((c4_no_quantity_validation smallEngine "BTC" (-1) (by decide) (by decide) (by decide)
        (by decide) (by decide)).2 (by decide)).1⟩

/-- C5: the end-to-end scenario: from 100000 cash on day-1 prices with
BTC at 20000, `buy(BTC, 2)` leaves cash 60000 and 2 BTC; after
advancing to day 2 with BTC at 25000, `sell(BTC, 1)` leaves cash 85000
and 1 BTC; then the portfolio value is 110000 and the profit 10000. -/
theorem c5_scenario :
    initSimulator c5days 100000 = Except.ok c5s1 ∧
    buy c5s1 "BTC" 2 = Except.ok c5s2 ∧ c5s2.cash = 60000 ∧ lookupD c5s2.assets "BTC" = 2 ∧
    next_day c5s2 = Except.ok c5s3 ∧
    sell c5s3 "BTC" 1 = Except.ok c5s4 ∧ c5s4.cash = 85000 ∧ lookupD c5s4.assets "BTC" = 1 ∧
    value c5s4 = 110000 ∧ profit c5s4 = 10000 := by
  have hav : asset_values c5s4 = [("BTC", 1, (25000 : ℚ) * ((1 : ℤ) : ℚ))] := rfl
  have hval : value c5s4 = 110000 := by
    unfold value
    rw [hav]
    simp only [c5s4, List.map_cons, List.map_nil, List.sum_cons, List.sum_nil]
    norm_num
  refine ⟨?_, ?_, rfl, rfl, rfl, ?_, rfl, rfl, hval, ?_⟩
  · exact initSimulator_cons 0 base_asset_price [(1, c5prices2)] 100000 (by decide)
  · rw [buy_eq_spec]
    norm_num [buySpec, c5s1, c5s2, fieldPrice, base_asset_price, assetFields, addTo,
      assetsInit, assetsBTC]
  · rw [sell_eq_spec c5s3 "BTC" 1 (by decide)]
    norm_num [sellSpec, c5s3, c5s4, fieldPrice, c5prices2, base_asset_price, assetFields,
      addTo, assetsBTC, lookupD]
  · unfold profit
    rw [hval]
    norm_num [c5s4]

/-- C6: on a tracked symbol with a positive integer quantity, enough
cash for the purchase and non-negative prior holdings, `buy(s, q)`
followed immediately by `sell(s, q)` at the unchanged price succeeds
and restores cash and the holding of `s` exactly to their pre-buy
values (the arithmetic is exact rational arithmetic: no rounding
drift). -/
theorem c6_roundtrip (st : PortfolioSimulator) (s : String) (q : ℤ)
    (hs : s ∈ assetFields) (_hq : 0 < q) (hhold : 0 ≤ lookupD st.assets s)
    (hcash : fieldPrice st.current_prices s * (q : ℚ) ≤ st.cash) :
    buy st s q = Except.ok (buyResult st s q) ∧
    sell (buyResult st s q) s q = Except.ok (sellResult (buyResult st s q) s q) ∧
    (sellResult (buyResult st s q) s q).cash = st.cash ∧
    lookupD (sellResult (buyResult st s q) s q).assets s = lookupD st.assets s := by
  have hkey : hasKey (buyResult st s q).assets s = true := hasKey_addTo_self st.assets s q
  have hlook : lookupD (buyResult st s q).assets s = lookupD st.assets s + q :=
    lookupD_addTo_self st.assets s q
  refine ⟨?_, ?_, ?_, ?_⟩
  · rw [buy_eq_spec]
    unfold buySpec
    rw [if_pos hs, if_neg (not_lt.2 hcash)]
    rfl
  · unfold sell
    rw [if_neg (by simp [hkey]), if_neg (by rw [hlook]; omega),
      getPrice_of_mem (buyResult st s q).current_prices hs]
    rfl
  · show st.cash - fieldPrice st.current_prices s * (q : ℚ)
        + fieldPrice st.current_prices s * (q : ℚ) = st.cash
    ring
  · show lookupD (addTo (addTo st.assets s q) s (-q)) s = lookupD st.assets s
    rw [lookupD_addTo_self, lookupD_addTo_self]
    omega

/-- C6 witness: buying and selling one BTC at 20000 from 100000 cash
restores the cash exactly. -/
theorem c6_roundtrip_witness :
    buy c5s1 "BTC" 1 = Except.ok (buyResult c5s1 "BTC" 1) ∧
    (sellResult (buyResult c5s1 "BTC" 1) "BTC" 1).cash = c5s1.cash := by
  have h := c6_roundtrip c5s1 "BTC" 1 (by decide) (by decide) (by decide)
    (by norm_num [c5s1, fieldPrice, base_asset_price])
  exact ⟨h.1, h.2.2.1⟩

/-- C7: construction fails with `InvalidCash` when the initial cash is
negative; otherwise it pulls the first (date, snapshot) pair, failing
with `ExhaustedSource` on an empty source; on success the day counter
is 1 and `initial_value` equals the initial cash (holdings are all
zero at that point). -/
theorem c7_construction (history : List (ℤ × AssetPrice)) (cash : ℚ) :
    initSimulator history cash =
      if cash < 0 then Except.error SimError.notEnoughCash
      else
        match history with
        | [] => Except.error SimError.stopIteration
        | (d, p) :: rest =>
            Except.ok { cash := cash, assets := assetsInit, day_count := 1,
                        current_date := d, current_prices := p, days := rest,
                        initial_value := cash } := by
  by_cases hc : cash < 0
  · rw [if_pos hc]
    unfold initSimulator
    rw [if_pos hc]
  · rw [if_neg hc]
    cases history with
    | nil =>
        unfold initSimulator
        rw [if_neg hc]
    | cons hd rest =>
        obtain ⟨d, p⟩ := hd
        exact initSimulator_cons d p rest cash hc

/-- C8: `advanceDay` pulls the next pair from the source, replacing the
current date and snapshot and incrementing the day counter by exactly
one while leaving cash and holdings untouched, and fails with
`SimulationEnded` on an exhausted source; for the bounded source of
length 1, construction succeeds (pulling day 1) and the first
`advanceDay` call fails. -/
theorem c8_advance_day :
    (∀ st : PortfolioSimulator,
      next_day st =
        match st.days with
        | [] => Except.error SimError.stopIteration
        | (d, p) :: rest =>
            Except.ok { st with current_date := d, current_prices := p, days := rest,
                                day_count := st.day_count + 1 }) ∧
    initSimulator [(0, base_asset_price)] 100 = Except.ok smallEngine ∧
    next_day smallEngine = Except.error SimError.stopIteration := by
  refine ⟨fun st => rfl, ?_, rfl⟩
  exact initSimulator_cons 0 base_asset_price [] 100 (by decide)

/-- C9: for any stream `u` of raw generator draws in `[0, 1)` and any
multiplier range `low < high`, the random-walk source yields the exact
base snapshot on day 0 (for every stream, hence unaffected by the
generator); each later day multiplies the price that each asset had on the
previous day by its own uniform draw `low + (high - low) × u` (one distinct
draw per asset per step, in fixed field order), each such multiplier
lying in `[low, high)`; and the sequence is total in the day index,
hence unbounded. -/
theorem c9_random_walk (low high : ℚ) (u : ℕ → ℚ)
    (hlh : low < high) (hu : ∀ n, 0 ≤ u n ∧ u n < 1) :
    walkPrices low high u 0 = base_asset_price ∧
    (∀ n,
      (walkPrices low high u (n + 1)).BTC
        = (walkPrices low high u n).BTC * uniform low high (u (7 * n)) ∧
      (walkPrices low high u (n + 1)).ETH
        = (walkPrices low high u n).ETH * uniform low high (u (7 * n + 1)) ∧
      (walkPrices low high u (n + 1)).BNB
        = (walkPrices low high u n).BNB * uniform low high (u (7 * n + 2)) ∧
      (walkPrices low high u (n + 1)).SOL
        = (walkPrices low high u n).SOL * uniform low high (u (7 * n + 3)) ∧
      (walkPrices low high u (n + 1)).MKR
        = (walkPrices low high u n).MKR * uniform low high (u (7 * n + 4)) ∧
      (walkPrices low high u (n + 1)).XPR
        = (walkPrices low high u n).XPR * uniform low high (u (7 * n + 5)) ∧
      (walkPrices low high u (n + 1)).ADA
        = (walkPrices low high u n).ADA * uniform low high (u (7 * n + 6))) ∧
    (∀ n, low ≤ uniform low high (u n) ∧ uniform low high (u n) < high) ∧
    (∀ today n, randomWalkSeq today low high u n = (today + n, walkPrices low high u n)) := by
  refine ⟨rfl, fun n => ⟨rfl, rfl, rfl, rfl, rfl, rfl, rfl⟩, fun n => ⟨?_, ?_⟩,
    fun today n => rfl⟩
  · have h1 : 0 ≤ (high - low) * u n := mul_nonneg (by linarith) (hu n).1
    unfold uniform
    linarith
  · have h2 : (high - low) * u n < (high - low) * 1 :=
      mul_lt_mul_of_pos_left (hu n).2 (by linarith)
    unfold uniform
    linarith

/-- C9 witness: range [0, 1) with the constant draw one half. -/
theorem c9_random_walk_witness :
    walkPrices 0 1 (fun _ => half) 0 = base_asset_price ∧
    (0 : ℚ) ≤ uniform 0 1 half ∧ uniform 0 1 half < 1 := by
  have hu : ∀ n : ℕ, 0 ≤ (fun _ : ℕ => half) n ∧ (fun _ : ℕ => half) n < 1 := by
    intro n
    constructor
    · show (0 : ℚ) ≤ half
      decide
    · show half < (1 : ℚ)
      decide
  have h := c9_random_walk 0 1 (fun _ : ℕ => half) (by decide) hu
  exact ⟨h.1, (h.2.2.1 5).1, (h.2.2.1 5).2⟩

/-- C10: the draw stream of a source is a function of the constructor
seed alone (the instance owns its generator, seeded deterministically
in `__post_init__`), and the walk consumes draws in a fixed stable
field order; hence two sources built the same day with equal seeds and
equal multiplier ranges produce identical (date, snapshot) sequences,
in particular on the first 100 steps. -/
theorem c10_determinism (rngOf : ℕ → ℕ → ℚ) (seed1 seed2 : ℕ)
    (lo1 hi1 lo2 hi2 : ℚ) (t1 t2 : ℤ)
    (hseed : seed1 = seed2) (hlo : lo1 = lo2) (hhi : hi1 = hi2) (ht : t1 = t2) :
    ∀ n ≤ 100, randomWalkSeq t1 lo1 hi1 (rngOf seed1) n
      = randomWalkSeq t2 lo2 hi2 (rngOf seed2) n := by
  subst hseed
  subst hlo
  subst hhi
  subst ht
  intro n _
  rfl

/-- C10 witness: seed 42, range [0.5, 1.5], step 5. -/
theorem c10_determinism_witness :
    randomWalkSeq 0 half (3 * half) ((fun _ _ => half) 42) 5
      = randomWalkSeq 0 half (3 * half) ((fun _ _ => half) 42) 5 :=
  c10_determinism (fun _ _ => half) 42 42 half (3 * half) half (3 * half) 0 0
    rfl rfl rfl rfl 5 (by decide)

end TradingSim
